import Mathlib

/-!
# Unit-sphere angular distributions (`src/distribution_multi.cpp`)

A shallow embedding of the OpenMC translation unit `distribution_multi.cpp`:
the constructors `UnitSphereDistribution(pugi::xml_node)` and
`PolarAzimuthal(pugi::xml_node)` and the three `sample` member functions.

Conventions of the embedding.

* `double` is a type parameter `R`.  The arithmetic the source performs on it
  (`+`, `-`, `*`, unary `-`, `==`, floating literals) is supplied by the type
  classes `Add`, `Sub`, `Mul`, `Neg`, `BEq`, `OfScientific`; nothing is assumed
  about these operations, so the structural theorems hold for IEEE doubles as
  well as for the reals.  Theorems about magnitudes, ranges and the poles
  instantiate `R := ℝ` with the real `sqrt`, `cos` and `sin`.
* `uint64_t* prn_seeds` is a type parameter `S`, threaded through explicitly:
  a function that may advance the seeds returns the new seeds with its result.
* `int stream` is an `Int`.
* Everything the translation unit calls but does not define (the random number
  generator, `<cmath>`, `rotate_angle`, the XML helpers, the `Distribution`
  hierarchy, the constant `PI`) is a parameter, grouped by the header that
  declares it.  These collaborators are taken to be total functions.
* `fatal_error` is `Except.error`.
-/

namespace openmc

/-! ## Data model -/

/-- The type `Direction` (an alias of `Position`): three `double` components. -/
structure Direction (R : Type) where
  x : R
  y : R
  z : R
deriving DecidableEq, Repr

/-- The constructor `Direction(const double xyz[])`: reads `xyz[0]`, `xyz[1]`, `xyz[2]`. -/
def Direction.ofData {R : Type} (xyz : Array R) (h : 3 ≤ xyz.size) : Direction R :=
  { x := xyz.get ⟨0, by omega⟩, y := xyz.get ⟨1, by omega⟩, z := xyz.get ⟨2, by omega⟩ }

/-- Squared Euclidean magnitude of a direction. -/
def Direction.normSq {R : Type} [Add R] [Mul R] (d : Direction R) : R :=
  d.x * d.x + d.y * d.y + d.z * d.z

/-- The class `UnitSphereDistribution`: its only data member is `u_ref_`. -/
structure UnitSphereDistribution (R : Type) where
  u_ref_ : Direction R
deriving DecidableEq, Repr

/-- The class `Isotropic : public UnitSphereDistribution`, no further members. -/
structure Isotropic (R : Type) extends UnitSphereDistribution R

/-- The class `Monodirectional : public UnitSphereDistribution`, no further members. -/
structure Monodirectional (R : Type) extends UnitSphereDistribution R

/-- The class `PolarAzimuthal : public UnitSphereDistribution`, with the two owned
distributions `mu_` and `phi_` (`UPtrDist`); `D` is the type of distributions. -/
structure PolarAzimuthal (R D : Type) extends UnitSphereDistribution R where
  mu_ : D
  phi_ : D

/-! ## External collaborators -/

/-- From `openmc/random_lcg.h`: `prn(prn_seeds, stream)` returns a variate and
advances the seeds. -/
structure RandomLcg (S R : Type) where
  prn : S → Int → R × S

/-- From `<cmath>`: the three library functions the translation unit calls. -/
structure CMath (R : Type) where
  sqrt : R → R
  cos : R → R
  sin : R → R

/-- From `openmc/math_functions.h`: `rotate_angle(u, mu, &phi, prn_seeds, stream)`.
The azimuth is passed by pointer to a local that is dead after the call, so
only the returned direction and the seeds it leaves are kept. -/
structure MathFunctions (S R : Type) where
  rotate_angle : Direction R → R → R → S → Int → Direction R × S

/-- From `openmc/distribution.h`: the virtual member `Distribution::sample`; `D` is
the type of the objects a `UPtrDist` may point to. -/
structure Distribution (S R D : Type) where
  sample : D → S → Int → R × S

/-- From `openmc/distribution.h`: the constructor `Uniform(a, b)` and the factory
`distribution_from_xml`. -/
structure DistributionFactory (Node R D : Type) where
  Uniform : R → R → D
  distribution_from_xml : Node → D

/-- From `openmc/xml_interface.h`: `check_for_node` and `get_node_array<double>`. -/
structure XmlInterface (Node R : Type) where
  check_for_node : Node → String → Bool
  get_node_array : Node → String → Array R

/-- From `openmc/error.h`: `fatal_error` aborts with a message. -/
def fatal_error {α : Type} (message : String) : Except String α :=
  Except.error message

/-! ## Construction -/

/-- Modelled from the spec: the default member initialiser of `u_ref_`, which
is declared in `openmc/distribution_multi.h`, a header that is not among the
sources.  The spec gives it as the polar axis `(0, 0, 1)`. -/
def UnitSphereDistribution.default_u_ref (R : Type) [OfScientific R] : Direction R :=
  { x := 0.0, y := 0.0, z := 1.0 }

/-- The constructor `UnitSphereDistribution::UnitSphereDistribution(pugi::xml_node)`
(lines 18-28).  The member `u_ref_` starts at its default initialiser and is
overwritten only inside the `reference_uvw` branch. -/
def UnitSphereDistribution.ctor {Node R : Type} [OfScientific R]
    (X : XmlInterface Node R) (node : Node) : Except String (UnitSphereDistribution R) :=
  let self : UnitSphereDistribution R := { u_ref_ := UnitSphereDistribution.default_u_ref R }
  -- Read reference directional unit vector
  if X.check_for_node node "reference_uvw" then
    let u_ref := X.get_node_array node "reference_uvw"
    if h : u_ref.size ≠ 3 then
      fatal_error
        "Angular distribution reference direction must have three parameters specified."
    else
      pure { self with u_ref_ := Direction.ofData u_ref (by omega) }
  else
    pure self

/-- The constructor `PolarAzimuthal::PolarAzimuthal(Direction, UPtrDist, UPtrDist)`
(lines 35-36). -/
def PolarAzimuthal.ctorDirect {R D : Type} (u : Direction R) (mu phi : D) :
    PolarAzimuthal R D :=
  { u_ref_ := u, mu_ := mu, phi_ := phi }

/-- The constructor `PolarAzimuthal::PolarAzimuthal(pugi::xml_node)` (lines 38-54); `child` is
pugixml's `xml_node::child`. -/
def PolarAzimuthal.ctor {Node R D : Type} [Neg R] [Mul R] [OfScientific R]
    (PI : R) (X : XmlInterface Node R) (child : Node → String → Node)
    (Fy : DistributionFactory Node R D) (node : Node) :
    Except String (PolarAzimuthal R D) := do
  let base ← UnitSphereDistribution.ctor X node
  let mu_ :=
    if X.check_for_node node "mu" then
      let node_dist := child node "mu"
      Fy.distribution_from_xml node_dist
    else
      Fy.Uniform (-1.0) 1.0
  let phi_ :=
    if X.check_for_node node "phi" then
      let node_dist := child node "phi"
      Fy.distribution_from_xml node_dist
    else
      Fy.Uniform 0.0 (2.0 * PI)
  pure { toUnitSphereDistribution := base, mu_ := mu_, phi_ := phi_ }

/-! ## Sampling -/

/-- The member function `Monodirectional::sample` (lines 89-92). -/
def Monodirectional.sample {S R : Type} (self : Monodirectional R)
    (prn_seeds : S) (_stream : Int) : Direction R × S :=
  (self.u_ref_, prn_seeds)

/-- The member function `Isotropic::sample` (lines 77-83). -/
def Isotropic.sample {S R : Type} [Sub R] [Mul R] [OfScientific R]
    (M : CMath R) (PI : R) (G : RandomLcg S R) (_self : Isotropic R)
    (prn_seeds : S) (stream : Int) : Direction R × S :=
  let (r1, prn_seeds) := G.prn prn_seeds stream
  let phi := 2.0 * PI * r1
  let (r2, prn_seeds) := G.prn prn_seeds stream
  let mu := 2.0 * r2 - 1.0
  ({ x := mu, y := M.sqrt (1.0 - mu * mu) * M.cos phi,
     z := M.sqrt (1.0 - mu * mu) * M.sin phi }, prn_seeds)

/-- The member function `PolarAzimuthal::sample` (lines 56-71).  The integer literal `0`
in `u_ref_.x == 0` is converted to `double`, hence `0.0` here. -/
def PolarAzimuthal.sample {S R D : Type} [Add R] [Mul R] [BEq R] [OfScientific R]
    (PI : R) (Ds : Distribution S R D) (F : MathFunctions S R)
    (self : PolarAzimuthal R D) (prn_seeds : S) (stream : Int) : Direction R × S :=
  -- Sample cosine of polar angle
  let (mu, prn_seeds) := Ds.sample self.mu_ prn_seeds stream
  if mu == 1.0 then (self.u_ref_, prn_seeds)
  else
    -- Sample azimuthal angle
    let (phi, prn_seeds) := Ds.sample self.phi_ prn_seeds stream
    let phi := if self.u_ref_.x == 0.0 && self.u_ref_.y == 0.0 then phi + 0.5 * PI else phi
    F.rotate_angle self.u_ref_ mu phi prn_seeds stream

/-! ## Harness definitions used by the statements -/

/-- A caller making `n` successive calls of a sampler on the same seeds,
collecting the directions in call order. -/
def successive {S R : Type} (sampler : S → Int → Direction R × S) :
    Nat → S → Int → List (Direction R) × S
  | 0, prn_seeds, _ => ([], prn_seeds)
  | n + 1, prn_seeds, stream =>
    let (d, prn_seeds) := sampler prn_seeds stream
    let (ds, prn_seeds) := successive sampler n prn_seeds stream
    (d :: ds, prn_seeds)

/-- Instrumented generator: the seeds are paired with the number of calls of
`prn` made so far. -/
def RandomLcg.counted {S R : Type} (G : RandomLcg S R) : RandomLcg (S × Nat) R :=
  { prn := fun prn_seeds stream =>
      ((G.prn prn_seeds.1 stream).1, ((G.prn prn_seeds.1 stream).2, prn_seeds.2 + 1)) }

/-- Mock distributions: the object `v` is the point mass at `v`; the seeds are
a counter of the draws made. -/
def mockDistribution (R : Type) : Distribution Nat R R :=
  { sample := fun v prn_seeds _ => (v, prn_seeds + 1) }

/-- Mock rotation routine: records the polar cosine and the azimuth it was
called with in the first two components of its result, and draws nothing. -/
def mockRotate (R : Type) : MathFunctions Nat R :=
  { rotate_angle := fun u mu phi prn_seeds _ => ({ x := mu, y := phi, z := u.z }, prn_seeds) }

/-- Mock configuration node: named numeric arrays (attribute or element
values) and named child elements. -/
inductive MockNode (R : Type) where
  | mk (arrays : List (String × Array R)) (children : List (String × MockNode R))

/-- The named arrays of a mock node. -/
def MockNode.arrays {R : Type} : MockNode R → List (String × Array R)
  | MockNode.mk arrays _ => arrays

/-- The named children of a mock node. -/
def MockNode.children {R : Type} : MockNode R → List (String × MockNode R)
  | MockNode.mk _ children => children

/-- Mock of pugixml's `xml_node::child`: the named child, or the empty node. -/
def MockNode.child {R : Type} (node : MockNode R) (name : String) : MockNode R :=
  (node.children.lookup name).getD (MockNode.mk [] [])

/-- Mock XML helpers over `MockNode`: a name is present when it is the name of
an array or of a child; a missing array reads as the empty array. -/
def mockXml (R : Type) : XmlInterface (MockNode R) R :=
  { check_for_node := fun node name =>
      (node.arrays.lookup name).isSome || (node.children.lookup name).isSome,
    get_node_array := fun node name => (node.arrays.lookup name).getD #[] }

/-- Mock distribution objects for construction: a distribution is recorded by
how it was built. -/
inductive MockDist (Node R : Type) where
  | uniform (a b : R)
  | fromXml (node : Node)

/-- Mock distribution factory recording its arguments. -/
def mockFactory (Node R : Type) : DistributionFactory Node R (MockDist Node R) :=
  { Uniform := MockDist.uniform, distribution_from_xml := MockDist.fromXml }

/-- Mock generator: the seeds count the calls; on every stream the first
variate is `0.25` and the later ones are `0.5`. -/
def mockPrn (R : Type) [OfScientific R] : RandomLcg Nat R :=
  { prn := fun prn_seeds _ => (if prn_seeds = 0 then 0.25 else 0.5, prn_seeds + 1) }

/-- A second mock generator: it answers like `mockPrn` on stream `0` and
returns `0.0` without advancing the seeds on every other stream. -/
def mockPrnOther (R : Type) [OfScientific R] : RandomLcg Nat R :=
  { prn := fun prn_seeds stream =>
      if stream = 0 then (if prn_seeds = 0 then 0.25 else 0.5, prn_seeds + 1)
      else (0.0, prn_seeds) }

/-- A second family of mock point masses: it answers like `mockDistribution`
on stream `0` and draws nothing on every other stream. -/
def mockDistributionOther (R : Type) : Distribution Nat R R :=
  { sample := fun v prn_seeds stream =>
      if stream = 0 then (v, prn_seeds + 1) else (v, prn_seeds) }

/-- A second mock rotation routine: it answers like `mockRotate` on stream `0`
and returns the reference direction on every other stream. -/
def mockRotateOther (R : Type) : MathFunctions Nat R :=
  { rotate_angle := fun u mu phi prn_seeds stream =>
      if stream = 0 then ({ x := mu, y := phi, z := u.z }, prn_seeds) else (u, prn_seeds) }

/-! ## Theorems -/

/-- The constructor on a node without `reference_uvw`: the default-initialised
object is returned. -/
theorem UnitSphereDistribution.ctor_absent {Node R : Type} [OfScientific R]
    (X : XmlInterface Node R) (node : Node)
    (hnode : X.check_for_node node "reference_uvw" = false) :
    UnitSphereDistribution.ctor X node
      = Except.ok { u_ref_ := UnitSphereDistribution.default_u_ref R } := by
  simp [UnitSphereDistribution.ctor, hnode, pure, Except.pure]

/-- The constructor on a node whose `reference_uvw` is `[a, b, c]`. -/
theorem UnitSphereDistribution.ctor_three {Node R : Type} [OfScientific R]
    (X : XmlInterface Node R) (node : Node)
    (hnode : X.check_for_node node "reference_uvw" = true) (a b c : R)
    (habc : X.get_node_array node "reference_uvw" = #[a, b, c]) :
    UnitSphereDistribution.ctor X node = Except.ok { u_ref_ := ⟨a, b, c⟩ } := by
  simp [UnitSphereDistribution.ctor, hnode, habc, pure, Except.pure, Direction.ofData]

/-- The constructor on a node whose `reference_uvw` has a length other than 3. -/
theorem UnitSphereDistribution.ctor_wrong_size {Node R : Type} [OfScientific R]
    (X : XmlInterface Node R) (node : Node)
    (hnode : X.check_for_node node "reference_uvw" = true)
    (hsz : (X.get_node_array node "reference_uvw").size ≠ 3) :
    UnitSphereDistribution.ctor X node = fatal_error
      "Angular distribution reference direction must have three parameters specified." := by
  simp [UnitSphereDistribution.ctor, hnode, hsz]

/-- An array of size three is the array of its three entries. -/
theorem array_eq_of_size_three {R : Type} (xs : Array R) (h : xs.size = 3) :
    xs = #[xs.get ⟨0, by omega⟩, xs.get ⟨1, by omega⟩, xs.get ⟨2, by omega⟩] := by
  apply Array.ext
  · simp [h]
  · intro i h1 h2
    have hi : i < 3 := by omega
    interval_cases i <;> simp

/-- The short-circuit of `PolarAzimuthal::sample`. -/
theorem PolarAzimuthal.sample_of_mu_one {S R D : Type} [Add R] [Mul R] [BEq R]
    [OfScientific R] (PI : R) (Ds : Distribution S R D) (F : MathFunctions S R)
    (self : PolarAzimuthal R D) (s : S) (stream : Int)
    (hmu : ((Ds.sample self.mu_ s stream).1 == 1.0) = true) :
    PolarAzimuthal.sample PI Ds F self s stream
      = (self.u_ref_, (Ds.sample self.mu_ s stream).2) := by
  simp only [PolarAzimuthal.sample, hmu, if_true]

/-- Two samplers that agree on one stream, whatever the seeds, give the same
successive calls on that stream. -/
theorem successive_eq_of_agree_on_stream {S R : Type}
    (f g : S → Int → Direction R × S) (stream : Int)
    (h : ∀ t : S, f t stream = g t stream) (n : Nat) (s : S) :
    successive f n s stream = successive g n s stream := by
  induction n generalizing s with
  | zero => rfl
  | succ k ih => simp only [successive, h s, ih]

/-- Successive calls of `Monodirectional::sample`. -/
theorem Monodirectional.successive_sample {S R : Type} (self : Monodirectional R)
    (n : Nat) (s : S) (stream : Int) :
    successive (Monodirectional.sample self) n s stream
      = (List.replicate n self.u_ref_, s) := by
  induction n with
  | zero => rfl
  | succ k ih =>
    have hs : Monodirectional.sample self s stream = (self.u_ref_, s) := rfl
    simp only [successive, hs, ih, List.replicate_succ]

/-- C1. `Monodirectional::sample` returns exactly the reference direction
(each of the three components unchanged) and leaves the seeds as they were,
whatever the seeds and the stream; hence any number of successive calls return
that same direction every time and still leave the seeds untouched. -/
theorem C1_monodirectional_sample_identity {S R : Type} (self : Monodirectional R)
    (s : S) (stream : Int) :
    Monodirectional.sample self s stream = (self.u_ref_, s) ∧
    ((Monodirectional.sample self s stream).1.x = self.u_ref_.x ∧
     (Monodirectional.sample self s stream).1.y = self.u_ref_.y ∧
     (Monodirectional.sample self s stream).1.z = self.u_ref_.z) ∧
    ∀ n : Nat, successive (Monodirectional.sample self) n s stream
      = (List.replicate n self.u_ref_, s) := by
  refine ⟨rfl, ⟨rfl, rfl, rfl⟩, ?_⟩
  intro n
  induction n with
  | zero => rfl
  | succ k ih =>
    have hs : Monodirectional.sample self s stream = (self.u_ref_, s) := rfl
    simp only [successive, hs, ih, List.replicate_succ]

/-- C2. When the draw from `mu_` on the given seeds compares equal to `1.0`,
`PolarAzimuthal::sample` returns the reference direction together with the
seeds left by that single draw; the outcome is the same for every other
azimuthal distribution and every other rotation routine. -/
theorem C2_polar_azimuthal_short_circuit {S R D : Type} [Add R] [Mul R] [BEq R]
    [OfScientific R] (PI : R) (Ds : Distribution S R D) (F : MathFunctions S R)
    (self : PolarAzimuthal R D) (s : S) (stream : Int)
    (hmu : ((Ds.sample self.mu_ s stream).1 == 1.0) = true) :
    PolarAzimuthal.sample PI Ds F self s stream
      = (self.u_ref_, (Ds.sample self.mu_ s stream).2) ∧
    ∀ (phi' : D) (F' : MathFunctions S R),
      PolarAzimuthal.sample PI Ds F' { self with phi_ := phi' } s stream
        = PolarAzimuthal.sample PI Ds F self s stream := by
  constructor
  · exact PolarAzimuthal.sample_of_mu_one PI Ds F self s stream hmu
  · intro phi' F'
    rw [PolarAzimuthal.sample_of_mu_one PI Ds F self s stream hmu,
      PolarAzimuthal.sample_of_mu_one PI Ds F' { self with phi_ := phi' } s stream hmu]

/-- Witness for C2: a point mass at `1.0` as polar-cosine distribution. -/
theorem C2_polar_azimuthal_short_circuit_witness :
    (((mockDistribution ℚ).sample (1.0 : ℚ) 0 0).1 == 1.0) = true ∧
    PolarAzimuthal.sample (3.1415926535898 : ℚ) (mockDistribution ℚ) (mockRotate ℚ)
      { u_ref_ := ⟨0.0, 1.0, 0.0⟩, mu_ := 1.0, phi_ := 0.25 } 0 0
      = (⟨0.0, 1.0, 0.0⟩, 1) :=
  ⟨by simp [mockDistribution],
   (C2_polar_azimuthal_short_circuit (3.1415926535898 : ℚ) (mockDistribution ℚ) (mockRotate ℚ)
      { u_ref_ := ⟨0.0, 1.0, 0.0⟩, mu_ := 1.0, phi_ := 0.25 } 0 0
      (by simp [mockDistribution])).1⟩

/-- C3. For a reference direction whose `x` and `y` both compare equal to
zero (whatever `z` is) and seeds on which the draw `mu` from `mu_` does not
compare equal to `1.0`, `PolarAzimuthal::sample` draws `phi` from `phi_` on the
seeds left by the `mu` draw and returns `rotate_angle(u_ref, mu, phi + 0.5*PI)`
called on the seeds left by the `phi` draw. -/
theorem C3_polar_azimuthal_pole_shift {S R D : Type} [Add R] [Mul R] [BEq R]
    [OfScientific R] (PI : R) (Ds : Distribution S R D) (F : MathFunctions S R)
    (self : PolarAzimuthal R D) (s : S) (stream : Int)
    (hx : (self.u_ref_.x == 0.0) = true) (hy : (self.u_ref_.y == 0.0) = true)
    (hmu : ((Ds.sample self.mu_ s stream).1 == 1.0) = false) :
    PolarAzimuthal.sample PI Ds F self s stream
      = F.rotate_angle self.u_ref_
          (Ds.sample self.mu_ s stream).1
          ((Ds.sample self.phi_ (Ds.sample self.mu_ s stream).2 stream).1 + 0.5 * PI)
          (Ds.sample self.phi_ (Ds.sample self.mu_ s stream).2 stream).2
          stream := by
  simp [PolarAzimuthal.sample, hx, hy, hmu]

/-- Witness for C3 over the reals with `PI := π`: for `u_ref = (0, 0, 1)`,
`mu = 0`, `phi = 0` the rotation routine is called with azimuth `π / 2`
(the mock routine records `mu` and the azimuth in its result), after two
draws. -/
theorem C3_polar_azimuthal_pole_shift_witness :
    (((0 : ℝ) == 0.0) = true) ∧
    ((((mockDistribution ℝ).sample (0 : ℝ) 0 0).1 == 1.0) = false) ∧
    PolarAzimuthal.sample Real.pi (mockDistribution ℝ) (mockRotate ℝ)
      { u_ref_ := ⟨0, 0, 1⟩, mu_ := 0, phi_ := 0 } 0 0
      = ((mockRotate ℝ).rotate_angle ⟨0, 0, 1⟩ 0 (Real.pi / 2) 2 0) :=
  ⟨by norm_num, by norm_num [mockDistribution],
   (C3_polar_azimuthal_pole_shift Real.pi (mockDistribution ℝ) (mockRotate ℝ)
      { u_ref_ := ⟨0, 0, 1⟩, mu_ := 0, phi_ := 0 } 0 0
      (by norm_num) (by norm_num) (by norm_num [mockDistribution])).trans
     (by norm_num [mockDistribution, mockRotate]; ring)⟩

/-- C4. `Isotropic::sample` calls `prn` exactly twice, the second call on the
seeds left by the first: with `r1` the first variate and `r2` the second,
`phi = 2.0*PI*r1`, `mu = 2.0*r2 - 1.0`, the result is
`(mu, sqrt(1.0 - mu*mu)*cos(phi), sqrt(1.0 - mu*mu)*sin(phi))` and the seeds
returned are those left by the second call.  With the instrumented generator
the call counter advances by exactly two. -/
theorem C4_isotropic_sample_formula {S R : Type} [Sub R] [Mul R] [OfScientific R]
    (M : CMath R) (PI : R) (G : RandomLcg S R) (self : Isotropic R)
    (s : S) (stream : Int) :
    let r1 := (G.prn s stream).1
    let s1 := (G.prn s stream).2
    let r2 := (G.prn s1 stream).1
    let s2 := (G.prn s1 stream).2
    let phi := 2.0 * PI * r1
    let mu := 2.0 * r2 - 1.0
    Isotropic.sample M PI G self s stream
      = ({ x := mu, y := M.sqrt (1.0 - mu * mu) * M.cos phi,
           z := M.sqrt (1.0 - mu * mu) * M.sin phi }, s2) ∧
    ∀ n : Nat, (Isotropic.sample M PI G.counted self (s, n) stream).2 = (s2, n + 2) := by
  intro r1 s1 r2 s2 phi mu
  exact ⟨rfl, fun _ => rfl⟩

/-- C5. Over the real numbers (`sqrt`, `cos`, `sin` the real functions, `PI`
any real), when the second variate drawn by `Isotropic::sample` lies in
`[0, 1)` the returned direction `(x, y, z)` satisfies `x^2 + y^2 + z^2 = 1`;
the first variate, which only enters the azimuth, may be any real, so this
holds in particular when both variates lie in `[0, 1)`. -/
theorem C5_isotropic_unit_vector {S : Type} (PI : ℝ) (G : RandomLcg S ℝ)
    (self : Isotropic ℝ) (s : S) (stream : Int)
    (h2 : 0 ≤ (G.prn (G.prn s stream).2 stream).1 ∧
          (G.prn (G.prn s stream).2 stream).1 < 1) :
    (Isotropic.sample ⟨Real.sqrt, Real.cos, Real.sin⟩ PI G self s stream).1.x ^ 2
      + (Isotropic.sample ⟨Real.sqrt, Real.cos, Real.sin⟩ PI G self s stream).1.y ^ 2
      + (Isotropic.sample ⟨Real.sqrt, Real.cos, Real.sin⟩ PI G self s stream).1.z ^ 2
      = 1 := by
  obtain ⟨h2lo, h2hi⟩ := h2
  simp only [Isotropic.sample]
  generalize (G.prn (G.prn s stream).2 stream).1 = r2 at h2lo h2hi
  generalize (2.0 : ℝ) * PI * (G.prn s stream).1 = phi
  have e2 : (2.0 : ℝ) = 2 := by norm_num
  have e1 : (1.0 : ℝ) = 1 := by norm_num
  rw [e2, e1]
  have hnn : 0 ≤ 1 - (2 * r2 - 1) * (2 * r2 - 1) := by nlinarith
  have hsq : Real.sqrt (1 - (2 * r2 - 1) * (2 * r2 - 1)) ^ 2
      = 1 - (2 * r2 - 1) * (2 * r2 - 1) := Real.sq_sqrt hnn
  have hcs : Real.cos phi ^ 2 + Real.sin phi ^ 2 = 1 := Real.cos_sq_add_sin_sq phi
  calc (2 * r2 - 1) ^ 2
        + (Real.sqrt (1 - (2 * r2 - 1) * (2 * r2 - 1)) * Real.cos phi) ^ 2
        + (Real.sqrt (1 - (2 * r2 - 1) * (2 * r2 - 1)) * Real.sin phi) ^ 2
      = (2 * r2 - 1) ^ 2 + Real.sqrt (1 - (2 * r2 - 1) * (2 * r2 - 1)) ^ 2
          * (Real.cos phi ^ 2 + Real.sin phi ^ 2) := by ring
    _ = 1 := by rw [hsq, hcs]; ring

/-- Witness for C5: a generator whose seeds count the calls and which returns
`1/4` on the first call and `1/2` afterwards. -/
theorem C5_isotropic_unit_vector_witness :
    (Isotropic.sample ⟨Real.sqrt, Real.cos, Real.sin⟩ Real.pi
        (⟨fun n _ => (if n = 0 then 1 / 4 else 1 / 2, n + 1)⟩ : RandomLcg Nat ℝ)
        ⟨⟨⟨0, 0, 1⟩⟩⟩ 0 0).1.x ^ 2
      + (Isotropic.sample ⟨Real.sqrt, Real.cos, Real.sin⟩ Real.pi
        (⟨fun n _ => (if n = 0 then 1 / 4 else 1 / 2, n + 1)⟩ : RandomLcg Nat ℝ)
        ⟨⟨⟨0, 0, 1⟩⟩⟩ 0 0).1.y ^ 2
      + (Isotropic.sample ⟨Real.sqrt, Real.cos, Real.sin⟩ Real.pi
        (⟨fun n _ => (if n = 0 then 1 / 4 else 1 / 2, n + 1)⟩ : RandomLcg Nat ℝ)
        ⟨⟨⟨0, 0, 1⟩⟩⟩ 0 0).1.z ^ 2
      = 1 :=
  C5_isotropic_unit_vector Real.pi
    (⟨fun n _ => (if n = 0 then 1 / 4 else 1 / 2, n + 1)⟩ : RandomLcg Nat ℝ)
    ⟨⟨⟨0, 0, 1⟩⟩⟩ 0 0 (by norm_num)

/-- C6. For a node that has `reference_uvw`, the constructor
`UnitSphereDistribution(pugi::xml_node)` ends in `fatal_error` exactly when the
array read does not have three components, and the error is the
reference-direction message; when the array is `[a, b, c]` construction
succeeds with `u_ref_ = (a, b, c)`. -/
theorem C6_reference_uvw_three_components {Node R : Type} [OfScientific R]
    (X : XmlInterface Node R) (node : Node)
    (hnode : X.check_for_node node "reference_uvw" = true) :
    ((∃ msg, UnitSphereDistribution.ctor X node = Except.error msg)
        ↔ (X.get_node_array node "reference_uvw").size ≠ 3) ∧
    ((X.get_node_array node "reference_uvw").size ≠ 3 →
        UnitSphereDistribution.ctor X node = fatal_error
          "Angular distribution reference direction must have three parameters specified.") ∧
    (∀ a b c : R, X.get_node_array node "reference_uvw" = #[a, b, c] →
        UnitSphereDistribution.ctor X node = Except.ok { u_ref_ := ⟨a, b, c⟩ }) := by
  refine ⟨⟨?_, ?_⟩, ?_, ?_⟩
  · rintro ⟨msg, hmsg⟩ hsz
    rw [UnitSphereDistribution.ctor_three X node hnode _ _ _
      (array_eq_of_size_three _ hsz)] at hmsg
    cases hmsg
  · intro hsz
    exact ⟨_, UnitSphereDistribution.ctor_wrong_size X node hnode hsz⟩
  · exact UnitSphereDistribution.ctor_wrong_size X node hnode
  · exact UnitSphereDistribution.ctor_three X node hnode

/-- Witness for C6: `reference_uvw = [0.6, 0.0, 0.8]` is accepted as it is. -/
theorem C6_reference_uvw_three_components_witness :
    (mockXml ℚ).check_for_node
        (MockNode.mk [("reference_uvw", #[0.6, 0.0, 0.8])] []) "reference_uvw" = true ∧
    UnitSphereDistribution.ctor (mockXml ℚ)
        (MockNode.mk [("reference_uvw", #[0.6, 0.0, 0.8])] [])
      = Except.ok { u_ref_ := ⟨0.6, 0.0, 0.8⟩ } :=
  ⟨by decide,
   (C6_reference_uvw_three_components (mockXml ℚ)
      (MockNode.mk [("reference_uvw", #[0.6, 0.0, 0.8])] []) (by decide)).2.2
      0.6 0.0 0.8 rfl⟩

/-- C7, refuted as stated: the configuration `reference_uvw = [2, 0, 0]` is
accepted by the constructor and stored as it is, and both
`Monodirectional::sample` and the `mu == 1.0` short-circuit of
`PolarAzimuthal::sample` then return `(2, 0, 0)`, whose squared magnitude is
`4`, not `1`. -/
theorem C7_accepted_reference_not_unit :
    UnitSphereDistribution.ctor (mockXml ℝ)
        (MockNode.mk [("reference_uvw", #[2, 0, 0])] [])
      = Except.ok { u_ref_ := ⟨2, 0, 0⟩ } ∧
    (Monodirectional.sample { u_ref_ := (⟨2, 0, 0⟩ : Direction ℝ) } (0 : Nat) 0).1.normSq = 4 ∧
    ((((mockDistribution ℝ).sample (1 : ℝ) 0 0).1 == 1.0) = true) ∧
    (PolarAzimuthal.sample Real.pi (mockDistribution ℝ) (mockRotate ℝ)
        { u_ref_ := ⟨2, 0, 0⟩, mu_ := 1, phi_ := 0 } 0 0).1.normSq = 4 ∧
    (4 : ℝ) ≠ 1 := by
  have hmu : ((((mockDistribution ℝ).sample (1 : ℝ) 0 0).1 == 1.0) = true) := by
    norm_num [mockDistribution]
  refine ⟨?_, ?_, hmu, ?_, by norm_num⟩
  · exact UnitSphereDistribution.ctor_three (mockXml ℝ) _ (by decide) 2 0 0 rfl
  · norm_num [Monodirectional.sample, Direction.normSq]
  · rw [PolarAzimuthal.sample_of_mu_one Real.pi (mockDistribution ℝ) (mockRotate ℝ) _ 0 0 hmu]
    norm_num [Direction.normSq]

/-- C7, amended.  Over the reals, for every configuration the constructor
accepts, `Monodirectional::sample` and the `mu == 1.0` short-circuit of
`PolarAzimuthal::sample` return the stored reference direction; it has
magnitude 1 provided the supplied `reference_uvw = [a, b, c]`, when there is
one, satisfies `a*a + b*b + c*c = 1` (with no `reference_uvw` the default
`(0, 0, 1)` is returned). -/
theorem C7_unit_reference_gives_unit_sample {Node S D : Type} (PI : ℝ)
    (X : XmlInterface Node ℝ) (node : Node) (base : UnitSphereDistribution ℝ)
    (hok : UnitSphereDistribution.ctor X node = Except.ok base)
    (hunit : X.check_for_node node "reference_uvw" = true →
      ∀ a b c : ℝ, X.get_node_array node "reference_uvw" = #[a, b, c] →
        a * a + b * b + c * c = 1)
    (Ds : Distribution S ℝ D) (F : MathFunctions S ℝ) (mu phi : D) (s : S) (stream : Int)
    (hmu : ((Ds.sample mu s stream).1 == 1.0) = true) :
    (Monodirectional.sample { toUnitSphereDistribution := base } s stream).1 = base.u_ref_ ∧
    (PolarAzimuthal.sample PI Ds F
        { toUnitSphereDistribution := base, mu_ := mu, phi_ := phi } s stream).1
      = base.u_ref_ ∧
    (Monodirectional.sample { toUnitSphereDistribution := base } s stream).1.normSq = 1 ∧
    (PolarAzimuthal.sample PI Ds F
        { toUnitSphereDistribution := base, mu_ := mu, phi_ := phi } s stream).1.normSq
      = 1 := by
  have hbase : base.u_ref_.normSq = 1 := by
    cases hnode : X.check_for_node node "reference_uvw" with
    | false =>
      rw [UnitSphereDistribution.ctor_absent X node hnode] at hok
      cases hok
      norm_num [Direction.normSq, UnitSphereDistribution.default_u_ref]
    | true =>
      by_cases hsz : (X.get_node_array node "reference_uvw").size = 3
      · have harr := array_eq_of_size_three _ hsz
        rw [UnitSphereDistribution.ctor_three X node hnode _ _ _ harr] at hok
        cases hok
        exact hunit hnode _ _ _ harr
      · rw [UnitSphereDistribution.ctor_wrong_size X node hnode hsz] at hok
        cases hok
  have hpa := PolarAzimuthal.sample_of_mu_one PI Ds F
    { toUnitSphereDistribution := base, mu_ := mu, phi_ := phi } s stream hmu
  refine ⟨rfl, ?_, hbase, ?_⟩
  · rw [hpa]
  · rw [hpa]; exact hbase

/-- Witness for C7 amended: `reference_uvw = [0.6, 0, 0.8]`, a unit vector. -/
theorem C7_unit_reference_gives_unit_sample_witness :
    UnitSphereDistribution.ctor (mockXml ℝ)
        (MockNode.mk [("reference_uvw", #[0.6, 0, 0.8])] [])
      = Except.ok { u_ref_ := ⟨0.6, 0, 0.8⟩ } ∧
    (Monodirectional.sample { u_ref_ := (⟨0.6, 0, 0.8⟩ : Direction ℝ) } (0 : Nat) 0).1.normSq
      = 1 ∧
    (PolarAzimuthal.sample Real.pi (mockDistribution ℝ) (mockRotate ℝ)
        { u_ref_ := ⟨0.6, 0, 0.8⟩, mu_ := 1, phi_ := 0 } 0 0).1.normSq = 1 :=
  have hok : UnitSphereDistribution.ctor (mockXml ℝ)
        (MockNode.mk [("reference_uvw", #[0.6, 0, 0.8])] [])
      = Except.ok { u_ref_ := ⟨0.6, 0, 0.8⟩ } :=
    UnitSphereDistribution.ctor_three (mockXml ℝ) _ (by decide) 0.6 0 0.8 rfl
  have h := C7_unit_reference_gives_unit_sample Real.pi (mockXml ℝ)
    (MockNode.mk [("reference_uvw", #[0.6, 0, 0.8])] []) { u_ref_ := ⟨0.6, 0, 0.8⟩ } hok
    (by
      intro _ a b c habc
      have h3 : (#[0.6, 0, 0.8] : Array ℝ) = #[a, b, c] := habc
      simp only [Array.mk.injEq, List.cons.injEq, and_true] at h3
      obtain ⟨ha, hb, hc⟩ := h3
      subst ha hb hc
      norm_num)
    (mockDistribution ℝ) (mockRotate ℝ) 1 0 0 0 (by norm_num [mockDistribution])
  ⟨hok, h.2.2.1, h.2.2.2⟩

/-- C8. Whenever the base-class part of `PolarAzimuthal(pugi::xml_node)` is
constructed, the whole construction succeeds on top of it, and: `mu_` is
`Uniform(-1., 1.)` if the node has no `mu` and `distribution_from_xml` of the
`mu` child otherwise; independently `phi_` is `Uniform(0.0, 2.0*PI)` if the
node has no `phi` and `distribution_from_xml` of the `phi` child otherwise. -/
theorem C8_polar_azimuthal_ctor_defaults {Node R D : Type} [Neg R] [Mul R]
    [OfScientific R] (PI : R) (X : XmlInterface Node R) (child : Node → String → Node)
    (Fy : DistributionFactory Node R D) (node : Node) (base : UnitSphereDistribution R)
    (hok : UnitSphereDistribution.ctor X node = Except.ok base) :
    ∃ p : PolarAzimuthal R D,
      PolarAzimuthal.ctor PI X child Fy node = Except.ok p ∧
      p.toUnitSphereDistribution = base ∧
      (X.check_for_node node "mu" = false → p.mu_ = Fy.Uniform (-1.0) 1.0) ∧
      (X.check_for_node node "mu" = true →
        p.mu_ = Fy.distribution_from_xml (child node "mu")) ∧
      (X.check_for_node node "phi" = false → p.phi_ = Fy.Uniform 0.0 (2.0 * PI)) ∧
      (X.check_for_node node "phi" = true →
        p.phi_ = Fy.distribution_from_xml (child node "phi")) := by
  refine ⟨{ toUnitSphereDistribution := base,
            mu_ := if X.check_for_node node "mu" then
                Fy.distribution_from_xml (child node "mu") else Fy.Uniform (-1.0) 1.0,
            phi_ := if X.check_for_node node "phi" then
                Fy.distribution_from_xml (child node "phi") else Fy.Uniform 0.0 (2.0 * PI) },
    ?_, rfl, ?_, ?_, ?_, ?_⟩
  · simp only [PolarAzimuthal.ctor, hok, bind, Except.bind, pure, Except.pure]
  all_goals intro h; simp [h]

/-- Witness for C8: a node with a `phi` child and no `mu`. -/
theorem C8_polar_azimuthal_ctor_defaults_witness :
    PolarAzimuthal.ctor (3.1415926535898 : ℚ) (mockXml ℚ) MockNode.child
        (mockFactory (MockNode ℚ) ℚ)
        (MockNode.mk [] [("phi", MockNode.mk [("parameters", #[0.0, 1.0])] [])])
      = Except.ok
          { u_ref_ := ⟨0.0, 0.0, 1.0⟩,
            mu_ := MockDist.uniform (-1.0) 1.0,
            phi_ := MockDist.fromXml (MockNode.mk [("parameters", #[0.0, 1.0])] []) } := by
  obtain ⟨p, hp, hb, hmu, -, -, hphi⟩ :=
    C8_polar_azimuthal_ctor_defaults (3.1415926535898 : ℚ) (mockXml ℚ) MockNode.child
      (mockFactory (MockNode ℚ) ℚ)
      (MockNode.mk [] [("phi", MockNode.mk [("parameters", #[0.0, 1.0])] [])])
      { u_ref_ := ⟨0.0, 0.0, 1.0⟩ }
      (UnitSphereDistribution.ctor_absent (mockXml ℚ) _ (by decide))
  rw [hp]
  have e1 := hmu (by decide)
  have e2 := hphi (by decide)
  cases p
  simp only at hb e1 e2
  subst hb e1 e2
  rfl

/-- C9. On a node without `reference_uvw` construction succeeds and the
reference direction is the default-initialised member, left as it is: the
polar axis `(0, 0, 1)`.  This holds for the base-class constructor and for
`PolarAzimuthal(pugi::xml_node)` built on it. -/
theorem C9_default_reference_direction {Node R D : Type} [Neg R] [Mul R]
    [OfScientific R] (PI : R) (X : XmlInterface Node R) (child : Node → String → Node)
    (Fy : DistributionFactory Node R D) (node : Node)
    (hnode : X.check_for_node node "reference_uvw" = false) :
    UnitSphereDistribution.ctor X node
      = Except.ok { u_ref_ := UnitSphereDistribution.default_u_ref R } ∧
    UnitSphereDistribution.default_u_ref R = { x := 0.0, y := 0.0, z := 1.0 } ∧
    ∃ p : PolarAzimuthal R D,
      PolarAzimuthal.ctor PI X child Fy node = Except.ok p ∧
      p.u_ref_ = { x := 0.0, y := 0.0, z := 1.0 } := by
  have hbase := UnitSphereDistribution.ctor_absent X node hnode
  refine ⟨hbase, rfl,
    { u_ref_ := UnitSphereDistribution.default_u_ref R,
      mu_ := if X.check_for_node node "mu" then
          Fy.distribution_from_xml (child node "mu") else Fy.Uniform (-1.0) 1.0,
      phi_ := if X.check_for_node node "phi" then
          Fy.distribution_from_xml (child node "phi") else Fy.Uniform 0.0 (2.0 * PI) },
    ?_, rfl⟩
  simp only [PolarAzimuthal.ctor, hbase, bind, Except.bind, pure, Except.pure]

/-- Witness for C9: the empty node. -/
theorem C9_default_reference_direction_witness :
    (mockXml ℚ).check_for_node (MockNode.mk [] []) "reference_uvw" = false ∧
    UnitSphereDistribution.ctor (mockXml ℚ) (MockNode.mk [] [])
      = Except.ok { u_ref_ := ⟨0.0, 0.0, 1.0⟩ } :=
  ⟨by decide,
   (C9_default_reference_direction (3.1415926535898 : ℚ) (mockXml ℚ) MockNode.child
      (mockFactory (MockNode ℚ) ℚ) (MockNode.mk [] []) (by decide)).1⟩

/-- C10. `Isotropic::sample` does not read the reference direction: two
`Isotropic` objects with any two reference directions return the same
direction and leave the same seeds when sampled on the same seeds and
stream. -/
theorem C10_isotropic_ignores_reference {S R : Type} [Sub R] [Mul R] [OfScientific R]
    (M : CMath R) (PI : R) (G : RandomLcg S R) (u1 u2 : Direction R)
    (s : S) (stream : Int) :
    Isotropic.sample M PI G { u_ref_ := u1 } s stream
      = Isotropic.sample M PI G { u_ref_ := u2 } s stream := by
  rfl

/-- C11. Determinism, given deterministic collaborators.  Two runs on the
same seeds and stream are compared; each run has its own collaborators, and
the collaborators are only required to answer the two runs alike on the calls
a sampler may make: `prn` on this stream, `Distribution::sample` of the
sampler's own `mu_` and `phi_` on this stream, `rotate_angle` around the
sampler's own `u_ref_` on this stream.  They may differ everywhere else.
Then for each of `Isotropic`, `Monodirectional` and `PolarAzimuthal`, two
objects with the same members return the same direction and leave the same
seeds, and `n` successive calls give the same list of directions and the same
final seeds.  (`Isotropic` needs no condition on the members, and
`Monodirectional` calls no collaborator and does not read the stream
identifier: its second run may use any other stream.) -/
theorem C11_identical_samplers_agree {S R D : Type} [Add R] [Sub R] [Mul R] [BEq R]
    [OfScientific R] (M : CMath R) (PI : R) (G G' : RandomLcg S R)
    (Ds Ds' : Distribution S R D) (F F' : MathFunctions S R)
    (i1 i2 : Isotropic R) (m1 m2 : Monodirectional R) (p1 p2 : PolarAzimuthal R D)
    (stream stream' : Int)
    (hm : m1.u_ref_ = m2.u_ref_)
    (hp : p1.u_ref_ = p2.u_ref_ ∧ p1.mu_ = p2.mu_ ∧ p1.phi_ = p2.phi_)
    (hprn : ∀ t : S, G.prn t stream = G'.prn t stream)
    (hmu : ∀ t : S, Ds.sample p1.mu_ t stream = Ds'.sample p1.mu_ t stream)
    (hphi : ∀ t : S, Ds.sample p1.phi_ t stream = Ds'.sample p1.phi_ t stream)
    (hrot : ∀ (mu phi : R) (t : S),
      F.rotate_angle p1.u_ref_ mu phi t stream = F'.rotate_angle p1.u_ref_ mu phi t stream)
    (s : S) (n : Nat) :
    (Isotropic.sample M PI G i1 s stream = Isotropic.sample M PI G' i2 s stream ∧
     successive (Isotropic.sample M PI G i1) n s stream
       = successive (Isotropic.sample M PI G' i2) n s stream) ∧
    (Monodirectional.sample m1 s stream = Monodirectional.sample m2 s stream' ∧
     successive (Monodirectional.sample m1) n s stream
       = successive (Monodirectional.sample m2) n s stream') ∧
    (PolarAzimuthal.sample PI Ds F p1 s stream = PolarAzimuthal.sample PI Ds' F' p2 s stream ∧
     successive (PolarAzimuthal.sample PI Ds F p1) n s stream
       = successive (PolarAzimuthal.sample PI Ds' F' p2) n s stream) := by
  have hiso : ∀ t : S, Isotropic.sample M PI G i1 t stream
      = Isotropic.sample M PI G' i2 t stream := by
    intro t
    simp only [Isotropic.sample, hprn]
  have hmono : Monodirectional.sample m1 s stream = Monodirectional.sample m2 s stream' := by
    simp only [Monodirectional.sample, hm]
  have hpol : ∀ t : S, PolarAzimuthal.sample PI Ds F p1 t stream
      = PolarAzimuthal.sample PI Ds' F' p2 t stream := by
    intro t
    obtain ⟨hu, hmu_, hphi_⟩ := hp
    simp only [PolarAzimuthal.sample, ← hu, ← hmu_, ← hphi_, hmu, hphi, hrot]
  refine ⟨⟨hiso s, successive_eq_of_agree_on_stream _ _ stream hiso n s⟩, ⟨hmono, ?_⟩,
    ⟨hpol s, successive_eq_of_agree_on_stream _ _ stream hpol n s⟩⟩
  rw [Monodirectional.successive_sample, Monodirectional.successive_sample, hm]

/-- Witness for C11, over the reals, on stream `0` with three successive
calls: the second run uses collaborators that answer like those of the first
on stream `0` only. -/
theorem C11_identical_samplers_agree_witness :
    successive (Isotropic.sample ⟨Real.sqrt, Real.cos, Real.sin⟩ Real.pi (mockPrn ℝ)
        { u_ref_ := ⟨0, 0, 1⟩ }) 3 0 0
      = successive (Isotropic.sample ⟨Real.sqrt, Real.cos, Real.sin⟩ Real.pi (mockPrnOther ℝ)
        { u_ref_ := ⟨0, 0, 1⟩ }) 3 0 0 ∧
    successive (PolarAzimuthal.sample Real.pi (mockDistribution ℝ) (mockRotate ℝ)
        (PolarAzimuthal.ctorDirect ⟨0, 0, 1⟩ 0 0)) 3 0 0
      = successive (PolarAzimuthal.sample Real.pi (mockDistributionOther ℝ) (mockRotateOther ℝ)
        { u_ref_ := ⟨0, 0, 1⟩, mu_ := 0, phi_ := 0 }) 3 0 0 :=
  have h := C11_identical_samplers_agree ⟨Real.sqrt, Real.cos, Real.sin⟩ Real.pi
    (mockPrn ℝ) (mockPrnOther ℝ) (mockDistribution ℝ) (mockDistributionOther ℝ)
    (mockRotate ℝ) (mockRotateOther ℝ)
    { u_ref_ := ⟨0, 0, 1⟩ } { u_ref_ := ⟨0, 0, 1⟩ }
    { u_ref_ := ⟨0, 0, 1⟩ } { u_ref_ := ⟨0, 0, 1⟩ }
    (PolarAzimuthal.ctorDirect ⟨0, 0, 1⟩ 0 0) { u_ref_ := ⟨0, 0, 1⟩, mu_ := 0, phi_ := 0 }
    0 0 rfl ⟨rfl, rfl, rfl⟩
    (fun _ => by simp [mockPrn, mockPrnOther])
    (fun _ => by simp [mockDistribution, mockDistributionOther])
    (fun _ => by simp [mockDistribution, mockDistributionOther])
    (fun _ _ _ => by simp [mockRotate, mockRotateOther])
    0 3
  ⟨h.1.2, h.2.2.2⟩

/-- C12. For a reference direction whose `x` or `y` does not compare equal to
zero and seeds on which the draw `mu` from `mu_` does not compare equal to
`1.0` (for instance `mu = -1`), `PolarAzimuthal::sample` draws `mu` from
`mu_`, then `phi` from `phi_` on the seeds left by the `mu` draw, and returns
`rotate_angle(u_ref, mu, phi)` with `phi` as drawn, called on the seeds left
by the `phi` draw. -/
theorem C12_polar_azimuthal_off_pole {S R D : Type} [Add R] [Mul R] [BEq R]
    [OfScientific R] (PI : R) (Ds : Distribution S R D) (F : MathFunctions S R)
    (self : PolarAzimuthal R D) (s : S) (stream : Int)
    (hxy : (self.u_ref_.x == 0.0) = false ∨ (self.u_ref_.y == 0.0) = false)
    (hmu : ((Ds.sample self.mu_ s stream).1 == 1.0) = false) :
    PolarAzimuthal.sample PI Ds F self s stream
      = F.rotate_angle self.u_ref_
          (Ds.sample self.mu_ s stream).1
          (Ds.sample self.phi_ (Ds.sample self.mu_ s stream).2 stream).1
          (Ds.sample self.phi_ (Ds.sample self.mu_ s stream).2 stream).2
          stream := by
  have hcond : (self.u_ref_.x == 0.0 && self.u_ref_.y == 0.0) = false := by
    rcases hxy with h | h <;> simp [h]
  simp [PolarAzimuthal.sample, hcond, hmu]

/-- Witness for C12: `u_ref = (1, 0, 0)`, `mu = -1`, `phi = 0.25`; the mock
rotation records that it was called with azimuth `0.25` after two draws. -/
theorem C12_polar_azimuthal_off_pole_witness :
    (((1 : ℚ) == 0.0) = false) ∧
    ((((mockDistribution ℚ).sample (-1 : ℚ) 0 0).1 == 1.0) = false) ∧
    PolarAzimuthal.sample (3.1415926535898 : ℚ) (mockDistribution ℚ) (mockRotate ℚ)
      { u_ref_ := ⟨1, 0, 0⟩, mu_ := -1, phi_ := 0.25 } 0 0
      = ((mockRotate ℚ).rotate_angle ⟨1, 0, 0⟩ (-1) 0.25 2 0) :=
  ⟨by norm_num, by norm_num [mockDistribution],
   C12_polar_azimuthal_off_pole (3.1415926535898 : ℚ) (mockDistribution ℚ) (mockRotate ℚ)
      { u_ref_ := ⟨1, 0, 0⟩, mu_ := -1, phi_ := 0.25 } 0 0
      (Or.inl (by norm_num)) (by norm_num [mockDistribution])⟩

/-- C13. Over the real numbers, whatever the first variate (hence whatever
the azimuth): when the polar cosine computed by `Isotropic::sample`, which is
the `x` component it returns, is `-1` or `+1`, the returned direction is the
pole `(mu, 0, 0)`; in particular a second variate equal to `0` gives
`(-1, 0, 0)`. -/
theorem C13_isotropic_pole_exact {S : Type} (PI : ℝ) (G : RandomLcg S ℝ)
    (self : Isotropic ℝ) (s : S) (stream : Int)
    (hmu : (Isotropic.sample ⟨Real.sqrt, Real.cos, Real.sin⟩ PI G self s stream).1.x = -1 ∨
           (Isotropic.sample ⟨Real.sqrt, Real.cos, Real.sin⟩ PI G self s stream).1.x = 1) :
    (Isotropic.sample ⟨Real.sqrt, Real.cos, Real.sin⟩ PI G self s stream).1
      = { x := 2.0 * (G.prn (G.prn s stream).2 stream).1 - 1.0, y := 0, z := 0 } ∧
    ((G.prn (G.prn s stream).2 stream).1 = 0 →
      (Isotropic.sample ⟨Real.sqrt, Real.cos, Real.sin⟩ PI G self s stream).1
        = { x := -1, y := 0, z := 0 }) := by
  simp only [Isotropic.sample] at hmu ⊢
  generalize (G.prn (G.prn s stream).2 stream).1 = r2 at hmu ⊢
  generalize (2.0 : ℝ) * PI * (G.prn s stream).1 = phi
  have hzero : (1.0 : ℝ) - (2.0 * r2 - 1.0) * (2.0 * r2 - 1.0) = 0 := by
    rcases hmu with h | h <;> rw [h] <;> norm_num
  have hroot : Real.sqrt (1.0 - (2.0 * r2 - 1.0) * (2.0 * r2 - 1.0)) = 0 := by
    rw [hzero, Real.sqrt_zero]
  rw [hroot, zero_mul, zero_mul]
  refine ⟨rfl, ?_⟩
  intro hr2
  rw [hr2]
  norm_num

/-- Witness for C13: first variate `1/4`, second variate `0`. -/
theorem C13_isotropic_pole_exact_witness :
    (Isotropic.sample ⟨Real.sqrt, Real.cos, Real.sin⟩ Real.pi
        (⟨fun k _ => (if k = 0 then 1 / 4 else 0, k + 1)⟩ : RandomLcg Nat ℝ)
        ⟨⟨⟨0, 0, 1⟩⟩⟩ 0 0).1
      = { x := -1, y := 0, z := 0 } :=
  (C13_isotropic_pole_exact Real.pi
    (⟨fun k _ => (if k = 0 then 1 / 4 else 0, k + 1)⟩ : RandomLcg Nat ℝ)
    ⟨⟨⟨0, 0, 1⟩⟩⟩ 0 0 (Or.inl (by norm_num [Isotropic.sample]))).2
    (by norm_num)

/-- C14. Over the real numbers with `PI` positive, when the two variates drawn
by `Isotropic::sample` lie in `[0, 1)`: the azimuth `phi = 2.0*PI*r1` lies in
`[0, 2*PI)`, the polar cosine `mu = 2.0*r2 - 1.0` lies in `[-1, 1)` and so is
never `+1`, the argument `1.0 - mu*mu` of the square root is non-negative, the
square root is a genuine root of it, and the value returned is the direction
built from these `mu` and `phi`. -/
theorem C14_isotropic_ranges {S : Type} (PI : ℝ) (hPI : 0 < PI) (G : RandomLcg S ℝ)
    (self : Isotropic ℝ) (s : S) (stream : Int)
    (h1 : 0 ≤ (G.prn s stream).1 ∧ (G.prn s stream).1 < 1)
    (h2 : 0 ≤ (G.prn (G.prn s stream).2 stream).1 ∧
          (G.prn (G.prn s stream).2 stream).1 < 1) :
    let phi := 2.0 * PI * (G.prn s stream).1
    let mu := 2.0 * (G.prn (G.prn s stream).2 stream).1 - 1.0
    (0 ≤ phi ∧ phi < 2 * PI) ∧
    (-1 ≤ mu ∧ mu < 1) ∧
    mu ≠ 1 ∧
    0 ≤ 1.0 - mu * mu ∧
    Real.sqrt (1.0 - mu * mu) * Real.sqrt (1.0 - mu * mu) = 1.0 - mu * mu ∧
    Isotropic.sample ⟨Real.sqrt, Real.cos, Real.sin⟩ PI G self s stream
      = ({ x := mu, y := Real.sqrt (1.0 - mu * mu) * Real.cos phi,
           z := Real.sqrt (1.0 - mu * mu) * Real.sin phi },
         (G.prn (G.prn s stream).2 stream).2) := by
  intro phi mu
  obtain ⟨h1lo, h1hi⟩ := h1
  obtain ⟨h2lo, h2hi⟩ := h2
  have e2 : (2.0 : ℝ) = 2 := by norm_num
  have e1 : (1.0 : ℝ) = 1 := by norm_num
  have hphi : phi = 2 * PI * (G.prn s stream).1 := by simp only [phi, e2]
  have hmudef : mu = 2 * (G.prn (G.prn s stream).2 stream).1 - 1 := by
    simp only [mu, e2, e1]
  have hmulo : -1 ≤ mu := by rw [hmudef]; linarith
  have hmuhi : mu < 1 := by rw [hmudef]; linarith
  have hnn : 0 ≤ 1.0 - mu * mu := by rw [e1]; nlinarith
  refine ⟨⟨?_, ?_⟩, ⟨hmulo, hmuhi⟩, ne_of_lt hmuhi, hnn, Real.mul_self_sqrt hnn, rfl⟩
  · rw [hphi]; positivity
  · rw [hphi]; nlinarith

/-- Witness for C14: `PI := π`, first variate `1/4`, second variate `1/2`;
the polar cosine returned as `x` component lies in `[-1, 1)`. -/
theorem C14_isotropic_ranges_witness :
    -1 ≤ (Isotropic.sample ⟨Real.sqrt, Real.cos, Real.sin⟩ Real.pi
        (⟨fun k _ => (if k = 0 then 1 / 4 else 1 / 2, k + 1)⟩ : RandomLcg Nat ℝ)
        ⟨⟨⟨0, 0, 1⟩⟩⟩ 0 0).1.x ∧
    (Isotropic.sample ⟨Real.sqrt, Real.cos, Real.sin⟩ Real.pi
        (⟨fun k _ => (if k = 0 then 1 / 4 else 1 / 2, k + 1)⟩ : RandomLcg Nat ℝ)
        ⟨⟨⟨0, 0, 1⟩⟩⟩ 0 0).1.x < 1 :=
  (C14_isotropic_ranges Real.pi Real.pi_pos
    (⟨fun k _ => (if k = 0 then 1 / 4 else 1 / 2, k + 1)⟩ : RandomLcg Nat ℝ)
    ⟨⟨⟨0, 0, 1⟩⟩⟩ 0 0 (by norm_num) (by norm_num)).2.1

end openmc
